import Mathlib

/-!
Verification of the steerable-CNN tutorial repository (escnn_escience).

The repository ships a tutorial notebook (src/examples/model.ipynb) that
exercises the escnn library: it builds a C8-equivariant CNN out of
field-typed layers, feeds rotated copies of an MNIST digit through the
untrained model, and records the resulting logits.  The library core
(group registry, kernel-basis solver, geometric tensors, equivariant
layers) is not part of the excerpted sources, so those components are
modelled here from the specification; the notebook's recorded output is
embedded directly as data.
-/

namespace Escnn

/-! ## Recorded logits of the untrained model

The notebook's test_model prints, for the untrained `C8SteerableCNN`, a row
of ten logits for each rotation of the test image by r*45 degrees,
r = 0..7.  Each printed value has four decimal digits; we embed the table
with every entry scaled by 10^4 to an integer, transcribed row by row from
the recorded output. -/

/-- Row of logits printed for rotation angle 0 (and identically for 90,
180, 270) by the untrained model, scaled by 10^4. -/
def logitsRow0 : List ℤ :=
  [-925, -2818, 2395, -225, -835, -1658, 1349, -2302, -579, -481]

/-- Row of logits printed for rotation angle 45 (and identically for 135,
225, 315) by the untrained model, scaled by 10^4. -/
def logitsRow45 : List ℤ :=
  [-914, -2728, 2441, -236, -759, -1754, 1385, -2342, -612, -524]

/-- The eight recorded rows of untrained-model logits, indexed by the
rotation multiple r (angle r*45 degrees), transcribed from the notebook's
recorded output. -/
def untrainedLogits : Fin 8 → List ℤ :=
  ![logitsRow0, logitsRow45, logitsRow0, logitsRow45,
    logitsRow0, logitsRow45, logitsRow0, logitsRow45]

/-- Componentwise comparison of two logit rows up to an absolute tolerance
measured in units of 10^-4 (the printed precision). -/
def withinTol (tol : ℕ) : List ℤ → List ℤ → Bool
  | [], [] => true
  | a :: as, b :: bs => decide ((a - b).natAbs ≤ tol) && withinTol tol as bs
  | _, _ => false

/-! ## Field types and geometric tensors

Modelled from the spec: the library's group/representation registry,
field types and the geometric-tensor wrapper are not in the excerpted
sources.  A representation of the cyclic group C_N is named by its kind
(trivial, regular, or an irreducible of a given frequency); a field type
is an ordered list of representation names; its size is the sum of the
dimensions of its constituents; a geometric tensor is a raw tensor (a
list of spatial channel maps) tagged with a field type whose size equals
the channel count. -/

/-- Modelled from the spec: the name of a representation of the cyclic
group C_N available from the registry (trivial, regular, or the real
irreducible of frequency k). -/
inductive RepName (N : ℕ) where
  | trivial
  | regular
  | irrep (k : ℕ)
deriving DecidableEq

/-- Modelled from the spec: the dimension of a named representation of
C_N: the trivial representation is 1-dimensional, the regular
representation has one coordinate per group element, and a real
irreducible of frequency k is 1-dimensional for k = 0 (and for k = N/2
when N is even) and 2-dimensional otherwise. -/
def RepName.dim {N : ℕ} : RepName N → ℕ
  | .trivial => 1
  | .regular => N
  | .irrep k => if k = 0 ∨ 2 * k = N then 1 else 2

/-- Modelled from the spec: a field type is an ordered list of
representations, one per channel group. -/
def FieldType (N : ℕ) : Type := List (RepName N)

instance (N : ℕ) : DecidableEq (FieldType N) := by
  unfold FieldType; infer_instance

/-- Modelled from the spec: the total dimensionality of a field type is
the sum of the dimensions of its constituent representations. -/
def FieldType.size {N : ℕ} (ft : FieldType N) : ℕ :=
  (ft.map RepName.dim).sum

/-- A raw numeric tensor: a list of channels, each a spatial map on the
pixel grid. -/
def Tensor : Type := List (ℤ × ℤ → ℚ)

/-- Number of channels of a raw tensor. -/
def Tensor.channels (t : Tensor) : ℕ := t.length

/-- Modelled from the spec: a geometric tensor is a numeric tensor plus a
reference to its field type; invariantly the tensor's channel dimension
equals the field type's total dimension. -/
structure GeometricTensor (N : ℕ) where
  ft : FieldType N
  tensor : Tensor
  compat : tensor.channels = ft.size

/-- Modelled from the spec: `wrap` validates the channel-dimension match
and fails with a shape-mismatch error (here: `none`) otherwise. -/
def wrap {N : ℕ} (t : Tensor) (ft : FieldType N) : Option (GeometricTensor N) :=
  if h : t.channels = ft.size then some ⟨ft, t, h⟩ else none

/-- Modelled from the spec: `unwrap` returns the raw numeric tensor,
discarding the type tag. -/
def unwrap {N : ℕ} (x : GeometricTensor N) : Tensor := x.tensor

/-! ## Equivariant layers and their composition -/

/-- Modelled from the spec: an equivariant layer owns an input field type
and an output field type, fixed at construction time; its forward map
sends any geometric tensor of the input type to one of the output
type. -/
structure EquivLayer (N : ℕ) where
  in_type : FieldType N
  out_type : FieldType N
  f : GeometricTensor N → GeometricTensor N
  hf : ∀ x, x.ft = in_type → (f x).ft = out_type

/-- Modelled from the spec: applying a layer first checks that the input
tensor's field type matches the layer's input type, and signals a
type error (`none`) otherwise. -/
def EquivLayer.apply {N : ℕ} (L : EquivLayer N) (x : GeometricTensor N) :
    Option (GeometricTensor N) :=
  if x.ft = L.in_type then some (L.f x) else none

/-- Modelled from the spec: sequential application of two layers, as in
the notebook's forward pass. -/
def EquivLayer.seq {N : ℕ} (L1 L2 : EquivLayer N) (x : GeometricTensor N) :
    Option (GeometricTensor N) :=
  (L1.apply x).bind L2.apply

/-- Modelled from the spec: composition of two layers whose intermediate
field types match, as in the notebook's `in_type = self.block1.out_type`
chaining. -/
def EquivLayer.comp {N : ℕ} (L1 L2 : EquivLayer N)
    (h : L1.out_type = L2.in_type) : EquivLayer N where
  in_type := L1.in_type
  out_type := L2.out_type
  f := fun x => L2.f (L1.f x)
  hf := fun x hx => L2.hf _ (h ▸ L1.hf x hx)

/-- The identity layer on a given field type. -/
def EquivLayer.idLayer {N : ℕ} (ft : FieldType N) : EquivLayer N where
  in_type := ft
  out_type := ft
  f := id
  hf := fun _ hx => hx

/-! ## The cyclic group registry and the regular representation -/

/-- Modelled from the spec: a d-dimensional matrix representation of the
cyclic group C_N (realised as ZMod N): an assignment of an invertible
linear operator to each group element, consistent with composition. -/
structure MatrixRep (N d : ℕ) where
  mat : ZMod N → Matrix (Fin d) (Fin d) ℚ
  map_zero : mat 0 = 1
  map_add : ∀ a b : ZMod N, mat (a + b) = mat a * mat b

/-- The dimension of the carrier space of a matrix representation. -/
def MatrixRep.repDim {N d : ℕ} (_ : MatrixRep N d) : ℕ := d

/-- Cast from matrix indices to elements of C_N. -/
def finToZMod {N : ℕ} (i : Fin N) : ZMod N := (i.val : ZMod N)

/-- Cast from elements of C_N to matrix indices. -/
def zmodToFin {N : ℕ} [NeZero N] (z : ZMod N) : Fin N := ⟨z.val, z.val_lt⟩

/-- Modelled from the spec: the regular representation of C_N acts by
permutation on a space with one coordinate per group element: the matrix
of g has a 1 in entry (i, j) exactly when i = g + j in the group. -/
def regularRep (N : ℕ) [NeZero N] : MatrixRep N N where
  mat g := fun i j => if finToZMod i = g + finToZMod j then 1 else 0
  map_zero := by
    ext i j
    by_cases h : i = j
    · subst h
      simp [Matrix.one_apply]
    · have hne : ¬ finToZMod i = finToZMod j := by
        intro hc
        apply h
        have hv := congrArg ZMod.val hc
        simpa [finToZMod, ZMod.val_cast_of_lt i.isLt,
          ZMod.val_cast_of_lt j.isLt, Fin.ext_iff] using hv
      simp [Matrix.one_apply, h, hne]
  map_add := by
    intro a b
    ext i j
    rw [Matrix.mul_apply,
      Finset.sum_eq_single (zmodToFin (b + finToZMod j))]
    · have hk : finToZMod (zmodToFin (b + finToZMod j)) = b + finToZMod j :=
        ZMod.natCast_rightInverse _
      simp only [hk]
      simp [add_assoc]
    · intro k _ hk
      have hne : ¬ finToZMod k = b + finToZMod j := by
        intro hc
        apply hk
        have hv := congrArg ZMod.val hc
        apply Fin.ext
        simpa [finToZMod, ZMod.val_cast_of_lt k.isLt, zmodToFin] using hv
      simp [hne]
    · intro hmem
      exact absurd (Finset.mem_univ _) hmem

/-! ## The kernel-basis solver on pairs of irreducibles -/

/-- Modelled from the spec: an angular frequency t is a common frequency
component of the C_N irreducibles of frequencies j and l when it matches
their frequency difference or their frequency sum modulo N (the
steerability constraint for the pair). -/
def intertwines (N t j l : ℕ) : Prop :=
  (t + j) % N = l % N ∨ (t + l) % N = j % N

instance (N t j l : ℕ) : Decidable (intertwines N t j l) := by
  unfold intertwines
  infer_instance

/-- Modelled from the spec: the result of a kernel-basis solve: the basis
elements (one angular harmonic per admissible frequency) together with
the warnings surfaced to the caller.  The solver is a total function into
this type, so no exception interrupts model construction. -/
structure SolveResult where
  basis : List ℕ
  warnings : List String
deriving DecidableEq

/-- Modelled from the spec: the kernel-basis solver for the pair of C_N
irreducibles of frequencies j and l under a kernel support admitting
angular frequencies up to F: it retains every admissible frequency and
surfaces a non-fatal warning when the resulting basis is empty. -/
def solveBasis (N j l F : ℕ) : SolveResult :=
  let common := (List.range (F + 1)).filter fun t => decide (intertwines N t j l)
  { basis := common
    warnings := if common.isEmpty then ["empty kernel basis"] else [] }

/-! ## The kernel-basis cache -/

/-- Modelled from the spec: a cache key is the triple of input
representation, output representation and kernel support. -/
structure BasisKey where
  inRep : ℕ
  outRep : ℕ
  support : ℕ
deriving DecidableEq

/-- Modelled from the spec: the process-wide cache state: the memoized
bases together with the number of underlying solves triggered so far. -/
structure CacheState where
  entries : List (BasisKey × SolveResult)
  solves : ℕ

/-- The empty cache. -/
def CacheState.empty : CacheState := ⟨[], 0⟩

/-- Lookup of a key among the memoized cache entries. -/
def findEntry : List (BasisKey × SolveResult) → BasisKey → Option SolveResult
  | [], _ => none
  | (k, b) :: es, q => if k = q then some b else findEntry es q

/-- Modelled from the spec: requesting a basis through the cache: a hit
is served from the memoized entries without a new solve; a miss triggers
exactly one underlying solve, whose result is stored. -/
def getBasis (solve : BasisKey → SolveResult) (st : CacheState) (k : BasisKey) :
    SolveResult × CacheState :=
  match findEntry st.entries k with
  | some b => (b, st)
  | none => (solve k, ⟨(k, solve k) :: st.entries, st.solves + 1⟩)

/-! ## Eval-mode determinism of the forward pass -/

/-- Modelled from the spec: the train/eval mode flag toggled by the
notebook around each forward pass. -/
inductive Mode where
  | train
  | eval
deriving DecidableEq

/-- Running statistics held by a batch-normalization layer: the running
mean and the stored reciprocal spread of the channel. -/
structure BNState where
  mean : ℚ
  invstd : ℚ

/-- Mean of a channel over the batch. -/
def batchMean (x : List ℚ) : ℚ := x.sum / x.length

/-- Modelled from the spec: one batch-normalization step: in train mode
the batch statistics normalize the input and the running statistics are
updated; in eval mode the stored running statistics are used and the
state is returned unchanged. -/
def bnStep (m : Mode) (st : BNState) (x : List ℚ) : List ℚ × BNState :=
  match m with
  | .train =>
      let mu := batchMean x
      let v := batchMean (x.map fun a => (a - mu) * (a - mu))
      let g := 1 / (v + 1 / 100000)
      (x.map fun a => (a - mu) * g,
       ⟨st.mean * (9 / 10) + mu * (1 / 10), st.invstd * (9 / 10) + g * (1 / 10)⟩)
  | .eval =>
      (x.map fun a => (a - st.mean) * st.invstd, st)

/-- Modelled from the spec: a miniature stateful model: batch
normalization followed by a fixed linear read-out, threading the
batch-norm state through each call as the notebook's model does across
its train and eval phases. -/
def modelStep (w : List ℚ) (m : Mode) (st : BNState) (x : List ℚ) :
    List ℚ × BNState :=
  let r := bnStep m st x
  ((w.zip r.1).map fun p => p.1 * p.2, r.2)

/-! ## Exact equivariance of kernel-constrained convolution

Modelled from the spec: a convolution layer whose kernel satisfies the
steerability constraint produced by the kernel-basis solver is exactly
equivariant.  The spatial domain is the periodic pixel grid (so no
boundary or padding is present) acted on by its exact quarter-turn
rotations; representations of the rotation group mix the channels. -/

/-- The periodic pixel grid of side n. -/
abbrev Grid (n : ℕ) := ZMod n × ZMod n

/-- One exact quarter-turn of the periodic grid. -/
def rot1 {n : ℕ} (p : Grid n) : Grid n := (-p.2, p.1)

/-- The exact action of the grid rotation by g quarter-turns. -/
def rot {n : ℕ} (g : ZMod 4) (p : Grid n) : Grid n := rot1^[g.val] p

/-- A feature field on the periodic grid with d channels. -/
def FeatureField (n d : ℕ) : Type := Grid n → Fin d → ℚ

/-- Modelled from the spec: the action of the grid rotation g on a
feature field transforming under the representation ρ: rotate the
sampling point back and mix the channels by the matrix of g. -/
def actField {n d : ℕ} (ρ : MatrixRep 4 d) (g : ZMod 4) (f : FeatureField n d) :
    FeatureField n d :=
  fun p => (ρ.mat g).mulVec (f (rot (-g) p))

/-- Modelled from the spec: cross-correlation of a matrix-valued kernel
with a feature field over the whole periodic grid. -/
def conv {n di dout : ℕ} [NeZero n]
    (k : Grid n → Matrix (Fin dout) (Fin di) ℚ) (f : FeatureField n di) :
    FeatureField n dout :=
  fun p => ∑ q : Grid n, (k q).mulVec (f (p + q))

/-- Modelled from the spec: the steerability constraint cut out by the
kernel-basis solver: rotating the kernel argument equals conjugating the
kernel by the output and input representations. -/
def Steerable {n di dout : ℕ} (ρin : MatrixRep 4 di) (ρout : MatrixRep 4 dout)
    (k : Grid n → Matrix (Fin dout) (Fin di) ℚ) : Prop :=
  ∀ (g : ZMod 4) (q : Grid n), k (rot g q) = ρout.mat g * k q * ρin.mat (-g)

/-! ## Concrete fixtures used by the witness theorems -/

/-- The trivial one-dimensional representation of the rotation group. -/
def trivialRep : MatrixRep 4 1 where
  mat _ := 1
  map_zero := rfl
  map_add := by
    intro a b
    simp

/-- A concrete constant scalar kernel on the 2-periodic grid. -/
def wK : Grid 2 → Matrix (Fin 1) (Fin 1) ℚ := fun _ => 1

/-- A concrete constant scalar feature field on the 2-periodic grid. -/
def wF : FeatureField 2 1 := fun _ _ => 1

/-- A one-field scalar field type over C8 (the notebook's input type). -/
def wFtA : FieldType 8 := [RepName.trivial]

/-- A one-field regular field type over C8. -/
def wFtB : FieldType 8 := [RepName.regular]

/-- A concrete single-channel geometric tensor of type `wFtA`. -/
def wX : GeometricTensor 8 := ⟨wFtA, [fun _ => 0], rfl⟩

/-- A concrete single-channel raw tensor. -/
def wT1 : Tensor := [fun _ => 1]

/-- A concrete solver function for the cache fixture. -/
def wSolve : BasisKey → SolveResult :=
  fun key => solveBasis 8 key.inRep key.outRep key.support

/-- A concrete cache key. -/
def wKey : BasisKey := ⟨0, 1, 2⟩

/-- Concrete read-out weights for the eval-mode fixture. -/
def wW : List ℚ := [1, 2]

/-- A concrete batch-norm state for the eval-mode fixture. -/
def wSt : BNState := ⟨0, 1⟩

/-- A concrete input batch for the eval-mode fixture. -/
def wXs : List ℚ := [3, 4]

/-! ## Helper lemmas -/

theorem rot1_add {n : ℕ} (p q : Grid n) : rot1 (p + q) = rot1 p + rot1 q := by
  simp [rot1, Prod.ext_iff, neg_add, add_comm]

theorem rot1_iterate_add {n : ℕ} (m : ℕ) (p q : Grid n) :
    rot1^[m] (p + q) = rot1^[m] p + rot1^[m] q := by
  induction m generalizing p q with
  | zero => simp
  | succ m ih =>
      rw [Function.iterate_succ_apply, Function.iterate_succ_apply,
        Function.iterate_succ_apply, rot1_add, ih]

theorem rot_add_pt {n : ℕ} (g : ZMod 4) (p q : Grid n) :
    rot g (p + q) = rot g p + rot g q := rot1_iterate_add g.val p q

theorem rot1_four {n : ℕ} (p : Grid n) : rot1^[4] p = p := by
  show rot1 (rot1 (rot1 (rot1 p))) = p
  simp [rot1]

theorem rot1_four_mul {n : ℕ} (k : ℕ) (p : Grid n) : rot1^[4 * k] p = p := by
  induction k with
  | zero => simp
  | succ k ih =>
      rw [Nat.mul_succ, Function.iterate_add_apply, rot1_four, ih]

theorem rot1_iterate_mod {n : ℕ} (m : ℕ) (p : Grid n) :
    rot1^[m] p = rot1^[m % 4] p := by
  conv_lhs => rw [← Nat.div_add_mod m 4]
  rw [Function.iterate_add_apply, rot1_four_mul]

theorem rot_neg_rot {n : ℕ} (g : ZMod 4) (p : Grid n) :
    rot (-g) (rot g p) = p := by
  rw [rot, rot, ← Function.iterate_add_apply, rot1_iterate_mod,
    ← ZMod.val_add, neg_add_cancel]
  simp

theorem rot_rot_neg {n : ℕ} (g : ZMod 4) (p : Grid n) :
    rot g (rot (-g) p) = p := by
  have h := rot_neg_rot (-g) p
  rwa [neg_neg] at h

theorem matRep_mul_neg {N d : ℕ} (ρ : MatrixRep N d) (g : ZMod N) :
    ρ.mat g * ρ.mat (-g) = 1 := by
  rw [← ρ.map_add, add_neg_cancel, ρ.map_zero]

/-! ## Claim theorems -/

/-- Claim C3 (confirmed, spec-modelled): for every raw tensor t and
field type ft with matching channel count, unwrapping the wrapped
geometric tensor returns the original tensor unchanged. -/
theorem c3_wrap_unwrap_roundtrip (N : ℕ) (t : Tensor) (ft : FieldType N)
    (h : t.channels = ft.size) : (wrap t ft).map unwrap = some t := by
  rw [wrap, dif_pos h]
  rfl

/-- Witness for C3: the round-trip evaluated on a concrete
single-channel tensor and the scalar field type. -/
theorem c3_witness : (wrap wT1 wFtA).map unwrap = some wT1 :=
  c3_wrap_unwrap_roundtrip 8 wT1 wFtA rfl

/-- Claim C4 (confirmed, spec-modelled): wrapping fails with a shape
error exactly when the raw tensor's channel count differs from the field
type's total dimension, and succeeds otherwise. -/
theorem c4_wrap_shape_check (N : ℕ) (t : Tensor) (ft : FieldType N) :
    wrap t ft = none ↔ t.channels ≠ ft.size := by
  by_cases h : t.channels = ft.size
  · rw [wrap, dif_pos h]
    simp [h]
  · rw [wrap, dif_neg h]
    simp [h]

/-- Witness for C4: wrapping a one-channel tensor into an 8-dimensional
regular field type fails. -/
theorem c4_witness : wrap wT1 wFtB = none :=
  (c4_wrap_shape_check 8 wT1 wFtB).mpr (by decide)

/-- Claim C5 (confirmed, spec-modelled): when the intermediate field
types match, composing two layers is well-typed, the composite has the
expected input and output field types, and sequential application
succeeds on every tensor of the input type, producing the second layer's
output type; when the intermediate types do not match, sequential
application fails on every input. -/
theorem c5_layer_composition (N : ℕ) (L1 L2 : EquivLayer N) :
    (∀ h : L1.out_type = L2.in_type,
      (L1.comp L2 h).in_type = L1.in_type ∧
      (L1.comp L2 h).out_type = L2.out_type ∧
      ∀ x : GeometricTensor N, x.ft = L1.in_type →
        ∃ y, L1.seq L2 x = some y ∧ y.ft = L2.out_type) ∧
    (L1.out_type ≠ L2.in_type →
      ∀ x : GeometricTensor N, L1.seq L2 x = none) := by
  constructor
  · intro h
    refine ⟨rfl, rfl, ?_⟩
    intro x hx
    have h1 : (L1.f x).ft = L2.in_type := h ▸ L1.hf x hx
    refine ⟨L2.f (L1.f x), ?_, L2.hf _ h1⟩
    rw [EquivLayer.seq, EquivLayer.apply, if_pos hx, Option.some_bind,
      EquivLayer.apply, if_pos h1]
  · intro h x
    rw [EquivLayer.seq, EquivLayer.apply]
    by_cases hx : x.ft = L1.in_type
    · rw [if_pos hx, Option.some_bind, EquivLayer.apply, if_neg]
      rw [L1.hf x hx]
      exact h
    · rw [if_neg hx]
      rfl

/-- Witness for C5: composing the identity layer on the scalar field
type with itself succeeds on a concrete tensor, while chaining it into a
layer expecting a regular field type fails. -/
theorem c5_witness :
    (∃ y, (EquivLayer.idLayer wFtA).seq (EquivLayer.idLayer wFtA) wX = some y ∧
        y.ft = wFtA) ∧
    (EquivLayer.idLayer wFtA).seq (EquivLayer.idLayer wFtB) wX = none :=
  ⟨((c5_layer_composition 8 (EquivLayer.idLayer wFtA)
        (EquivLayer.idLayer wFtA)).1 rfl).2.2 wX rfl,
   (c5_layer_composition 8 (EquivLayer.idLayer wFtA)
        (EquivLayer.idLayer wFtB)).2 (by decide) wX⟩

/-- Claim C6 (confirmed, spec-modelled): requesting the same kernel
basis twice returns identical results, the second request triggers no
further solve, and a first request on a cold key triggers exactly one
underlying solve. -/
theorem c6_cache_idempotent (solve : BasisKey → SolveResult)
    (st : CacheState) (k : BasisKey) :
    (getBasis solve (getBasis solve st k).2 k).1 = (getBasis solve st k).1 ∧
    (getBasis solve (getBasis solve st k).2 k).2.solves =
      (getBasis solve st k).2.solves ∧
    (findEntry st.entries k = none →
      (getBasis solve st k).2.solves = st.solves + 1) := by
  rcases hfind : findEntry st.entries k with _ | b
  · have h1 : getBasis solve st k =
        (solve k, ⟨(k, solve k) :: st.entries, st.solves + 1⟩) := by
      rw [getBasis, hfind]
    have h2 : findEntry ((k, solve k) :: st.entries) k = some (solve k) := by
      rw [findEntry, if_pos rfl]
    refine ⟨?_, ?_, fun _ => ?_⟩ <;> rw [h1] <;> simp [getBasis, h2]
  · have h1 : getBasis solve st k = (b, st) := by
      rw [getBasis, hfind]
    refine ⟨?_, ?_, fun hc => absurd hc (by simp)⟩
    · rw [h1]
      show (getBasis solve st k).1 = b
      rw [h1]
    · rw [h1]
      show (getBasis solve st k).2.solves = st.solves
      rw [h1]

/-- Witness for C6: two requests of a concrete key on the empty cache
return the same basis and together trigger exactly one solve. -/
theorem c6_witness :
    (getBasis wSolve (getBasis wSolve CacheState.empty wKey).2 wKey).1 =
      (getBasis wSolve CacheState.empty wKey).1 ∧
    (getBasis wSolve CacheState.empty wKey).2.solves =
      CacheState.empty.solves + 1 :=
  ⟨(c6_cache_idempotent wSolve CacheState.empty wKey).1,
   (c6_cache_idempotent wSolve CacheState.empty wKey).2.2 rfl⟩

/-- Claim C7 (confirmed, spec-modelled): when two irreducibles share no
common frequency component under the given kernel support, the solver
returns an empty basis and surfaces a non-fatal warning; being a total
function, it raises no exception. -/
theorem c7_degenerate_basis (N j l F : ℕ)
    (h : ∀ t, t ≤ F → ¬ intertwines N t j l) :
    (solveBasis N j l F).basis = [] ∧ (solveBasis N j l F).warnings ≠ [] := by
  have hempty :
      (List.range (F + 1)).filter (fun t => decide (intertwines N t j l)) = [] := by
    rw [List.filter_eq_nil_iff]
    intro a ha
    simp only [decide_eq_true_eq]
    exact h a (Nat.lt_succ_iff.mp (List.mem_range.mp ha))
  constructor
  · simp [solveBasis, hempty]
  · simp [solveBasis, hempty]

/-- Witness for C7: the irreducibles of frequencies 1 and 2 of C8 share
no frequency component under a support of angular cutoff 0. -/
theorem c7_witness :
    (solveBasis 8 1 2 0).basis = [] ∧ (solveBasis 8 1 2 0).warnings ≠ [] :=
  c7_degenerate_basis 8 1 2 0 (by
    intro t ht
    have h0 : t = 0 := Nat.le_zero.mp ht
    subst h0
    decide)

/-- Claim C8 (confirmed, spec-modelled): the regular representation of
the cyclic group C_N has dimension equal to the order of the group, and
a field type of k regular fields has total channel dimension k times the
order. -/
theorem c8_regular_dim_eq_order (N k : ℕ) [NeZero N] :
    (regularRep N).repDim = Fintype.card (ZMod N) ∧
    FieldType.size (List.replicate k (RepName.regular : RepName N)) =
      k * Fintype.card (ZMod N) := by
  constructor
  · exact (ZMod.card N).symm
  · rw [ZMod.card N]
    simp [FieldType.size, RepName.dim, List.sum_replicate, Nat.smul_one_eq_cast]

/-- Witness for C8: for C8 (the notebook's group) the regular
representation is 8-dimensional and 24 regular fields give 192
channels. -/
theorem c8_witness :
    (regularRep 8).repDim = Fintype.card (ZMod 8) ∧
    FieldType.size (List.replicate 24 (RepName.regular : RepName 8)) =
      24 * Fintype.card (ZMod 8) :=
  c8_regular_dim_eq_order 8 24

/-- Claim C9 (confirmed): in the recorded untrained-model output, the
logits at 90, 180 and 270 degrees equal the logits at 0 degrees to the
printed precision, the logits at 45, 135, 225 and 315 degrees equal each
other, and the 45-degree logits differ from the 0-degree logits. -/
theorem c9_c4_exact_c8_approx :
    (untrainedLogits 2 = untrainedLogits 0 ∧
     untrainedLogits 4 = untrainedLogits 0 ∧
     untrainedLogits 6 = untrainedLogits 0) ∧
    (untrainedLogits 3 = untrainedLogits 1 ∧
     untrainedLogits 5 = untrainedLogits 1 ∧
     untrainedLogits 7 = untrainedLogits 1) ∧
    untrainedLogits 1 ≠ untrainedLogits 0 := by
  decide

/-- Counterexample for claim C1: in the recorded untrained-model output,
the logits for the 45-degree rotation (an exact multiple of the group's
45-degree step) differ from the unrotated logits by more than the
printed precision of 10^-4, hence are not equal up to floating-point
tolerance. -/
theorem c1_counterexample :
    ¬ withinTol 1 (untrainedLogits 1) (untrainedLogits 0) = true := by
  decide

/-- Claim C1 (corrected): in the recorded untrained-model output, the
logits are identical to the unrotated ones exactly for rotations by even
multiples of 45 degrees (multiples of 90 degrees); for odd multiples the
logits only agree approximately (within 0.01) and are not identical. -/
theorem c1_amended_invariance :
    (∀ r : Fin 8, r.val % 2 = 0 → untrainedLogits r = untrainedLogits 0) ∧
    (∀ r : Fin 8, r.val % 2 = 1 →
      untrainedLogits r ≠ untrainedLogits 0 ∧
      withinTol 100 (untrainedLogits r) (untrainedLogits 0) = true) := by
  decide

/-- Witness for the amended C1: the 90-degree row equals the 0-degree
row, and the 45-degree row is close to but distinct from it. -/
theorem c1_witness :
    untrainedLogits 2 = untrainedLogits 0 ∧
    (untrainedLogits 1 ≠ untrainedLogits 0 ∧
     withinTol 100 (untrainedLogits 1) (untrainedLogits 0) = true) :=
  ⟨c1_amended_invariance.1 2 (by decide), c1_amended_invariance.2 1 (by decide)⟩

/-- Claim C10 (confirmed, spec-modelled): the forward pass in eval mode
is deterministic and stateless: on equal inputs, a second run (from the
state left by the first) produces the same output, and the state is
unchanged. -/
theorem c10_eval_deterministic (w : List ℚ) (st : BNState) (x1 x2 : List ℚ)
    (h : x1 = x2) :
    (modelStep w .eval st x1).1 =
      (modelStep w .eval (modelStep w .eval st x1).2 x2).1 ∧
    (modelStep w .eval st x1).2 = st := by
  subst h
  exact ⟨rfl, rfl⟩

/-- Claim C2 (confirmed, spec-modelled): a convolution layer whose
kernel satisfies the steerability constraint produced by the
kernel-basis solver is exactly equivariant: convolving the transformed
input equals transforming the convolved output, for every rotation g
and every feature field.  Moreover any linear combination of
constraint-satisfying (basis) kernels satisfies the constraint again,
so every layer built purely from the kernel basis is exactly
equivariant.  The periodic grid carries no boundary, so no padding
degradation arises. -/
theorem c2_kernel_basis_equivariance {n di dout : ℕ} [NeZero n]
    (ρin : MatrixRep 4 di) (ρout : MatrixRep 4 dout)
    (k k1 k2 : Grid n → Matrix (Fin dout) (Fin di) ℚ) (a b : ℚ)
    (g : ZMod 4) (f : FeatureField n di)
    (hk : Steerable ρin ρout k) (hk1 : Steerable ρin ρout k1)
    (hk2 : Steerable ρin ρout k2) :
    conv k (actField ρin g f) = actField ρout g (conv k f) ∧
    Steerable ρin ρout (fun q => a • k1 q + b • k2 q) := by
  constructor
  · funext p
    simp only [conv, actField]
    have hdist : ∀ v : Grid n → Fin dout → ℚ,
        (ρout.mat g).mulVec (∑ q : Grid n, v q) =
          ∑ q : Grid n, (ρout.mat g).mulVec (v q) := by
      intro v
      rw [← Matrix.mulVecLin_apply, map_sum]
      simp [Matrix.mulVecLin_apply]
    rw [hdist]
    rw [← Equiv.sum_comp
      (⟨rot (-g), rot g, rot_rot_neg g, rot_neg_rot g⟩ : Grid n ≃ Grid n)
      (fun q => (ρout.mat g).mulVec ((k q).mulVec (f (rot (-g) p + q))))]
    apply Finset.sum_congr rfl
    intro q _
    show (k q).mulVec ((ρin.mat g).mulVec (f (rot (-g) (p + q)))) =
      (ρout.mat g).mulVec ((k (rot (-g) q)).mulVec (f (rot (-g) p + rot (-g) q)))
    rw [rot_add_pt, hk (-g) q, neg_neg, Matrix.mulVec_mulVec,
      Matrix.mulVec_mulVec, ← Matrix.mul_assoc, ← Matrix.mul_assoc,
      matRep_mul_neg, Matrix.one_mul]
  · intro g2 q
    show a • k1 (rot g2 q) + b • k2 (rot g2 q) =
      ρout.mat g2 * (a • k1 q + b • k2 q) * ρin.mat (-g2)
    rw [hk1 g2 q, hk2 g2 q]
    simp [Matrix.mul_add, Matrix.add_mul, Matrix.mul_smul, Matrix.smul_mul]

/-- Witness for C2: the constant scalar kernel on the 2-periodic grid
satisfies the constraint for the trivial representation, so the theorem
applies to it at the quarter-turn rotation and a concrete field. -/
theorem c2_witness :
    conv wK (actField trivialRep 1 wF) = actField trivialRep 1 (conv wK wF) ∧
    Steerable trivialRep trivialRep (fun q => (2 : ℚ) • wK q + (3 : ℚ) • wK q) :=
  c2_kernel_basis_equivariance trivialRep trivialRep wK wK wK 2 3 1 wF
    (by intro g q; simp [wK, trivialRep])
    (by intro g q; simp [wK, trivialRep])
    (by intro g q; simp [wK, trivialRep])

/-- Witness for C10: two successive eval-mode runs on a concrete batch
agree. -/
theorem c10_witness :
    (modelStep wW .eval wSt wXs).1 =
      (modelStep wW .eval (modelStep wW .eval wSt wXs).2 wXs).1 ∧
    (modelStep wW .eval wSt wXs).2 = wSt :=
  c10_eval_deterministic wW wSt wXs wXs rfl

end Escnn
